import Mathlib

/-!
Verification of the paginated batch-fetch and aggregation engine of
`dhudsmith/twitter_timeline` (files `utils/tweet_search.py` and
`utils/timeline.py`), as a shallow embedding in Lean 4.

Conventions used throughout:
* Python integers are `Int`; Python `//` and `%` are `Int.fdiv` / `Int.fmod`
  (floored division, which agrees with Python's semantics).
* A fallible Python computation is `Option`/`Except`: `none` / `.error`
  marks the raising of the exception named in the embedding's comments.
* pandas DataFrames are lists of rows; a row is modelled as an identity
  field plus one further field standing for the rest of the record, which
  is enough to distinguish dedup-by-identity from dedup-by-whole-row.
-/

namespace TwitterTimeline

/-! ## Batch planning (tweet_search.py, lines 52-60 of `TweetSearch.pull`)

The Python source:
```
num_batches = (max_results//batch_size) + 1
batches = [batch_size] * num_batches
last_batch_size = max_results % batch_size
if last_batch_size < 10:
    batches[-1] = 10
    if num_batches > 1:
        batches[-2] = batch_size - (10 - last_batch_size)
else:
    batches[-1] = last_batch_size
```
`batches[-1] = v` on a list of length `n` is `List.set (n-1) v`, and raises
`IndexError` when the list is empty, hence the `Option` result. -/

/-- The batch plan computed by `TweetSearch.pull` from `max_results` (the
requested total) and `batch_size` (the per-call cap); the minimum final
batch size 10 is hard-coded in the source.  `none` models the `IndexError`
raised by `batches[-1] = ...` on an empty candidate list. -/
def planBatches (max_results batch_size : Int) : Option (List Int) :=
  let num_batches : Int := max_results.fdiv batch_size + 1
  let batches : List Int := List.replicate num_batches.toNat batch_size
  let last_batch_size : Int := max_results.fmod batch_size
  if last_batch_size < 10 then
    if batches.length = 0 then none
    else
      let b1 := batches.set (batches.length - 1) 10
      if 1 < num_batches then
        some (b1.set (b1.length - 2) (batch_size - (10 - last_batch_size)))
      else
        some b1
  else
    if batches.length = 0 then none
    else some (batches.set (batches.length - 1) last_batch_size)

/-- Setting the last element of `replicate (k+1) c`. -/
lemma replicate_set_last (k : Nat) (c v : Int) :
    (List.replicate (k + 1) c).set k v = List.replicate k c ++ [v] := by
  induction k with
  | zero => simp [List.replicate]
  | succ m ih =>
      rw [List.replicate_succ]
      simp only [List.set_cons_succ]
      rw [ih]
      rw [show List.replicate (m + 1) c = c :: List.replicate m c from List.replicate_succ c m]
      simp

/-- Setting the second-to-last element of `replicate (m+1) c ++ [a]`. -/
lemma replicate_append_set_penult (m : Nat) (c a w : Int) :
    (List.replicate (m + 1) c ++ [a]).set m w
      = List.replicate m c ++ [w, a] := by
  induction m with
  | zero => simp [List.replicate]
  | succ k ih =>
      rw [List.replicate_succ]
      simp only [List.cons_append, List.set_cons_succ]
      rw [ih, List.replicate_succ]
      simp

/-- Closed form of `planBatches` for a nonnegative total and positive cap.
Writing `q = total // cap` and `r = total % cap`: if `r >= 10` the plan is
`q` full batches and a final batch `r`; if `r < 10` and `q = 0` the plan is
`[10]`; if `r < 10` and `q >= 1` the final batch is forced to 10 and
`10 - r` is borrowed from the second-to-last batch. -/
lemma planBatches_spec (t c : Int) (ht : 0 ≤ t) (hc : 0 < c) :
    planBatches t c =
      some (if t % c < 10 then
              (if t / c = 0 then [10]
               else List.replicate ((t / c).toNat - 1) c
                      ++ [c - (10 - t % c), 10])
            else List.replicate (t / c).toNat c ++ [t % c]) := by
  have hdiv : t.fdiv c = t / c := Int.fdiv_eq_ediv t (le_of_lt hc)
  have hmod : t.fmod c = t % c := Int.fmod_eq_emod t (le_of_lt hc)
  have hqnn : 0 ≤ t / c := Int.ediv_nonneg ht (le_of_lt hc)
  have hlen : (t / c + 1).toNat = (t / c).toNat + 1 := by omega
  unfold planBatches
  simp only [hdiv, hmod, hlen, List.length_replicate]
  by_cases hr : t % c < 10
  · simp only [if_pos hr]
    simp only [if_neg (by omega : ¬((t / c).toNat + 1 = 0))]
    by_cases hq : t / c = 0
    · have h1 : ¬ (1 : Int) < t / c + 1 := by omega
      simp only [hq, if_neg h1]
      norm_num [List.replicate]
    · have hq1 : 1 ≤ (t / c).toNat := by omega
      have h1 : (1 : Int) < t / c + 1 := by omega
      simp only [if_pos h1, if_neg hq]
      rw [show (t / c).toNat + 1 - 1 = (t / c).toNat from rfl]
      rw [replicate_set_last ((t / c).toNat) c 10]
      have hlen2 : (List.replicate ((t / c).toNat) c ++ [(10 : Int)]).length
          = (t / c).toNat + 1 := by simp
      rw [hlen2]
      obtain ⟨m, hm⟩ : ∃ m, (t / c).toNat = m + 1 := ⟨(t / c).toNat - 1, by omega⟩
      rw [hm]
      rw [show m + 1 + 1 - 2 = m from rfl]
      rw [replicate_append_set_penult m c 10 (c - (10 - t % c))]
      simp
  · simp only [if_neg hr]
    simp only [if_neg (by omega : ¬((t / c).toNat + 1 = 0))]
    rw [show (t / c).toNat + 1 - 1 = (t / c).toNat from rfl]
    rw [replicate_set_last ((t / c).toNat) c (t % c)]

/-- For a negative total the candidate batch list is empty and the
assignment `batches[-1] = ...` raises `IndexError` (embedded as `none`). -/
lemma planBatches_neg (t c : Int) (ht : t < 0) (hc : 0 < c) :
    planBatches t c = none := by
  have hdiv : t.fdiv c = t / c := Int.fdiv_eq_ediv t (le_of_lt hc)
  have hq : t / c < 0 := Int.ediv_neg' ht hc
  have hlen : (t / c + 1).toNat = 0 := by omega
  unfold planBatches
  simp only [hdiv, Int.fmod_eq_emod t (le_of_lt hc), hlen, List.length_replicate]
  by_cases hr : t % c < 10
  · simp [hr]
  · simp [hr]

/-- Sum of a replicated list over `Int`. -/
lemma sum_replicate_int (n : Nat) (c : Int) :
    (List.replicate n c).sum = (n : Int) * c := by
  simp [List.sum_replicate, nsmul_eq_mul]

/-- C2: for every total > 0 and per-call cap > 0, the batch plan computed by
`TweetSearch.pull` sums to at least the total; and the two documented
examples hold: `plan 250 100 = [100, 100, 50]` and
`plan 205 100 = [100, 95, 10]` (minimum final batch 10 hard-coded). -/
theorem planBatches_sum_ge_total_and_examples :
    (∀ t c : Int, 0 < t → 0 < c →
      ∃ p, planBatches t c = some p ∧ t ≤ p.sum) ∧
    planBatches 250 100 = some [100, 100, 50] ∧
    planBatches 205 100 = some [100, 95, 10] := by
  refine ⟨?_, by decide, by decide⟩
  intro t c ht hc
  have hr0 : 0 ≤ t % c := Int.emod_nonneg t (ne_of_gt hc)
  have hrc : t % c < c := Int.emod_lt_of_pos t hc
  have hqnn : 0 ≤ t / c := Int.ediv_nonneg (le_of_lt ht) (le_of_lt hc)
  have heq : c * (t / c) + t % c = t := Int.ediv_add_emod t c
  rw [planBatches_spec t c (le_of_lt ht) hc]
  by_cases hr : t % c < 10
  · rw [if_pos hr]
    by_cases hq : t / c = 0
    · rw [if_pos hq]
      refine ⟨[10], rfl, ?_⟩
      have hz : c * (t / c) = 0 := by rw [hq]; ring
      simp only [List.sum_cons, List.sum_nil]
      omega
    · rw [if_neg hq]
      refine ⟨_, rfl, ?_⟩
      have hcast : (((t / c).toNat - 1 : Nat) : Int) = t / c - 1 := by omega
      rw [List.sum_append, sum_replicate_int, hcast]
      simp only [List.sum_cons, List.sum_nil]
      nlinarith [heq, hr0, hc]
  · rw [if_neg hr]
    refine ⟨_, rfl, ?_⟩
    have hcast : (((t / c).toNat : Nat) : Int) = t / c := by omega
    rw [List.sum_append, sum_replicate_int, hcast]
    simp only [List.sum_cons, List.sum_nil]
    have hcomm : t / c * c = c * (t / c) := mul_comm _ _
    omega

/-- Witness for `planBatches_sum_ge_total_and_examples` at total 7, cap 3. -/
theorem planBatches_sum_witness :
    ∃ p, planBatches 7 3 = some p ∧ 7 ≤ p.sum :=
  planBatches_sum_ge_total_and_examples.1 7 3 (by norm_num) (by norm_num)

/-- C1 counterexample: at total 10 and cap 10 the computed plan is
`[0, 10]`, whose first element lies outside `[min_final_batch, cap]`
(and total 10 is not below the minimum final batch), refuting the claim
that every element lies within `[10, cap]` for all positive inputs. -/
theorem planBatches_bounds_cex :
    planBatches 10 10 = some [0, 10] ∧
    ¬ (∀ x ∈ [(0 : Int), 10], 10 ≤ x ∧ x ≤ 10) := by
  exact ⟨by decide, by decide⟩

/-- C1 amended: provided the per-call cap is at least twice the minimum
final batch (cap ≥ 20), every element of the plan lies within `[10, cap]`,
except when total < 10, in which case the plan is the single element
`[10]`. -/
theorem planBatches_bounds_of_cap_ge_20 (t c : Int) (ht : 0 < t) (hc : 20 ≤ c) :
    ∃ p, planBatches t c = some p ∧
      ((t < 10 → p = [10]) ∧ (10 ≤ t → ∀ x ∈ p, 10 ≤ x ∧ x ≤ c)) := by
  have hc0 : 0 < c := by omega
  have hr0 : 0 ≤ t % c := Int.emod_nonneg t (ne_of_gt hc0)
  have hrc : t % c < c := Int.emod_lt_of_pos t hc0
  have hqnn : 0 ≤ t / c := Int.ediv_nonneg (le_of_lt ht) (le_of_lt hc0)
  have heq : c * (t / c) + t % c = t := Int.ediv_add_emod t c
  rw [planBatches_spec t c (le_of_lt ht) hc0]
  by_cases hr : t % c < 10
  · rw [if_pos hr]
    by_cases hq : t / c = 0
    · rw [if_pos hq]
      refine ⟨[10], rfl, ?_, ?_⟩
      · intro _; rfl
      · intro _ x hx
        simp only [List.mem_singleton] at hx
        omega
    · rw [if_neg hq]
      have hq1 : 1 ≤ t / c := by omega
      have htc : c ≤ t := by nlinarith
      refine ⟨_, rfl, ?_, ?_⟩
      · intro hlt; omega
      · intro _ x hx
        simp only [List.mem_append, List.mem_cons, List.not_mem_nil,
          or_false] at hx
        rcases hx with hx | hx | hx
        · have := List.eq_of_mem_replicate hx
          omega
        · omega
        · omega
  · rw [if_neg hr]
    refine ⟨_, rfl, ?_, ?_⟩
    · intro hlt
      have hmul : 0 ≤ c * (t / c) := mul_nonneg (le_of_lt hc0) hqnn
      omega
    · intro _ x hx
      simp only [List.mem_append, List.mem_singleton] at hx
      rcases hx with hx | hx
      · have := List.eq_of_mem_replicate hx
        omega
      · omega

/-- Witness for `planBatches_bounds_of_cap_ge_20` at total 55, cap 25. -/
theorem planBatches_bounds_witness :
    ∃ p, planBatches 55 25 = some p ∧
      (((55 : Int) < 10 → p = [10]) ∧
       ((10 : Int) ≤ 55 → ∀ x ∈ p, 10 ≤ x ∧ x ≤ 25)) :=
  planBatches_bounds_of_cap_ge_20 55 25 (by norm_num) (by norm_num)

/-- C9 counterexample: at total 0 (and cap 100) the planning step does not
fail with any error; it returns the plan `[10]`. -/
theorem planBatches_total_zero_returns_plan :
    planBatches 0 100 = some [10] := by
  decide

/-- C9 amended: the planning step performs no input validation. For
total = 0 it produces the plan `[10]` (no error); for total < 0 the
candidate batch list is empty and the assignment to its last element fails
with `IndexError` — in neither case is an `InvalidArgument` error
raised. -/
theorem planBatches_nonpositive_total (t c : Int) (hc : 0 < c) :
    (t = 0 → planBatches t c = some [10]) ∧
    (t < 0 → planBatches t c = none) := by
  constructor
  · intro h
    subst h
    rw [planBatches_spec 0 c le_rfl hc]
    norm_num
  · intro h
    exact planBatches_neg t c h hc

/-- Witness for `planBatches_nonpositive_total` at totals 0 and -3, cap 5. -/
theorem planBatches_nonpositive_witness :
    planBatches 0 5 = some [10] ∧ planBatches (-3) 5 = none :=
  ⟨(planBatches_nonpositive_total 0 5 (by norm_num)).1 rfl,
   (planBatches_nonpositive_total (-3) 5 (by norm_num)).2 (by norm_num)⟩

/-! ## Table aggregation (tweet_search.py lines 108-127, timeline.py lines 95-105)

A DataFrame is a list of rows.  A row is a provider record: its identity
field `id` plus the remaining fields of the record collapsed into one field
`rest`, which is enough to distinguish deduplication by identity from
deduplication by whole-row equality. -/

/-- One DataFrame row: identity plus the rest of the record's fields. -/
structure Row where
  id : String
  rest : String
deriving DecidableEq, Repr

/-- One step of pandas `drop_duplicates`: keep the row only if an identical
row (all fields equal) has not been kept already. -/
def ddStep {α : Type} [DecidableEq α] (acc : List α) (r : α) : List α :=
  if r ∈ acc then acc else acc ++ [r]

/-- pandas `DataFrame.drop_duplicates()`: keeps the first occurrence of
each fully identical row; rows equal on some fields only are all kept. -/
def dropDuplicates {α : Type} [DecidableEq α] (l : List α) : List α :=
  l.foldl ddStep []

lemma ddStep_mem {α : Type} [DecidableEq α] (acc : List α) (r x : α) :
    x ∈ ddStep acc r ↔ x ∈ acc ∨ x = r := by
  unfold ddStep
  split
  · rename_i h
    constructor
    · exact Or.inl
    · rintro (hx | rfl)
      · exact hx
      · exact h
  · simp [List.mem_append]

lemma ddFoldl_mem {α : Type} [DecidableEq α] (l : List α) :
    ∀ (acc : List α) (x : α), x ∈ l.foldl ddStep acc ↔ x ∈ acc ∨ x ∈ l := by
  induction l with
  | nil => simp
  | cons r rest ih =>
      intro acc x
      rw [List.foldl_cons, ih, ddStep_mem]
      simp [List.mem_cons]
      tauto

lemma ddStep_nodup {α : Type} [DecidableEq α] (acc : List α) (r : α)
    (h : acc.Nodup) : (ddStep acc r).Nodup := by
  unfold ddStep
  split
  · exact h
  · rename_i hnot
    simp [List.nodup_append, h, hnot]

lemma ddFoldl_nodup {α : Type} [DecidableEq α] (l : List α) :
    ∀ acc : List α, acc.Nodup → (l.foldl ddStep acc).Nodup := by
  induction l with
  | nil => intro acc h; exact h
  | cons r rest ih =>
      intro acc h
      rw [List.foldl_cons]
      exact ih _ (ddStep_nodup acc r h)

lemma dropDuplicates_mem {α : Type} [DecidableEq α] (l : List α) (x : α) :
    x ∈ dropDuplicates l ↔ x ∈ l := by
  unfold dropDuplicates
  rw [ddFoldl_mem]
  simp

lemma dropDuplicates_nodup {α : Type} [DecidableEq α] (l : List α) :
    (dropDuplicates l).Nodup :=
  ddFoldl_nodup l [] List.nodup_nil

/-- One secondary-table merge step of `TweetSearch.pull` (lines 108-123):
`df = pd.concat([df, new], axis=0) if df is not None else new` followed by
`df = df.drop_duplicates()`. -/
def mergeSecondary (df : Option (List Row)) (new : List Row) : List Row :=
  dropDuplicates (df.getD [] ++ new)

/-- C4 counterexample: merging a record with the same identity "7" as one
already accumulated but a different remaining field keeps both copies —
`drop_duplicates` deduplicates on whole-row equality, not identity, so the
accumulated secondary table holds two records with identity "7". -/
theorem mergeSecondary_same_id_two_copies :
    mergeSecondary (some [⟨"7", "a"⟩]) [⟨"7", "b"⟩]
        = [⟨"7", "a"⟩, ⟨"7", "b"⟩] ∧
    ((mergeSecondary (some [⟨"7", "a"⟩]) [⟨"7", "b"⟩]).countP
        (fun r => r.id == "7")) = 2 := by
  exact ⟨by decide, by decide⟩

/-- C4 amended: secondary-table merging deduplicates by whole-record
equality — a merged record all of whose fields equal those of a record
already accumulated (or of another record of the same page) leaves exactly
one copy in the accumulated table; records agreeing on identity alone are
all kept.  (`Timeline.pull` performs no deduplication at all.) -/
theorem mergeSecondary_dedup_full_record (df : Option (List Row))
    (new : List Row) (r : Row) (h : r ∈ df.getD [] ++ new) :
    (mergeSecondary df new).count r = 1 :=
  List.count_eq_one_of_mem (dropDuplicates_nodup _)
    ((dropDuplicates_mem _ r).mpr h)

/-- Witness for `mergeSecondary_dedup_full_record`: merging an exact
duplicate of an accumulated record leaves one copy. -/
theorem mergeSecondary_dedup_witness :
    (mergeSecondary (some [⟨"7", "a"⟩]) [⟨"7", "a"⟩]).count ⟨"7", "a"⟩ = 1 :=
  mergeSecondary_dedup_full_record (some [⟨"7", "a"⟩]) [⟨"7", "a"⟩]
    ⟨"7", "a"⟩ (by decide)

/-! ## Primary-table accumulation (tweet_search.py line 127, timeline.py line 105) -/

/-- Primary-table accumulation across the merged pages of
`TweetSearch.pull` (line 127): `df_tweets = pd.concat([df_tweets,
new_tweets], axis=0) if df_tweets is not None else new_tweets` — a row
append with no `drop_duplicates`. -/
def accumPrimarySearch (pages : List (List Row)) : Option (List Row) :=
  pages.foldl
    (fun df p =>
      match df with
      | none => some p
      | some d => some (d ++ p))
    none

/-- Row count of the primary-table accumulation in `Timeline.pull`
(line 105), which concatenates with `axis = 1`.  Modelled from pandas
semantics: `pd.concat([a, b], axis=1)` on DataFrames carrying the default
RangeIndex aligns rows by index and adds the pages side by side as new
columns, so the row count of the result is the maximum of the two row
counts, not their sum. -/
def accumPrimaryTimelineRows (pages : List Nat) : Option Nat :=
  pages.foldl
    (fun df p =>
      match df with
      | none => some p
      | some d => some (max d p))
    none

lemma accumPrimarySearch_go (pages : List (List Row)) :
    ∀ acc : List Row,
      pages.foldl
        (fun df p =>
          match df with
          | none => some p
          | some d => some (d ++ p))
        (some acc) = some (acc ++ pages.flatten) := by
  induction pages with
  | nil => intro acc; simp
  | cons p ps ih =>
      intro acc
      rw [List.foldl_cons]
      simp only []
      rw [ih (acc ++ p)]
      simp

/-- C5: in `TweetSearch.pull` the primary table after N merged pages is
exactly the concatenation of the page record lists in page order — its
length is the sum of the page counts and cross-page duplicates are
preserved.  In `Timeline.pull` the same concatenation is performed with
`axis = 1`, so after pages of 2 and 1 records the accumulated primary
table has 2 rows, not 2 + 1: the code contradicts the claim (and its
`TweetSearch` sibling) there. -/
theorem primary_append_search_and_timeline_axis1_bug :
    (∀ pages : List (List Row),
        (accumPrimarySearch pages).getD [] = pages.flatten) ∧
    (∀ pages : List (List Row),
        ((accumPrimarySearch pages).getD []).length
          = (pages.map List.length).sum) ∧
    accumPrimaryTimelineRows [2, 1] = some 2 ∧ (2 : Nat) ≠ 2 + 1 := by
  have hjoin : ∀ pages : List (List Row),
      (accumPrimarySearch pages).getD [] = pages.flatten := by
    intro pages
    cases pages with
    | nil => rfl
    | cons p ps =>
        unfold accumPrimarySearch
        rw [List.foldl_cons]
        simp only []
        rw [accumPrimarySearch_go ps p]
        simp
  refine ⟨hjoin, ?_, by decide, by decide⟩
  intro pages
  rw [hjoin]
  induction pages with
  | nil => rfl
  | cons p ps ih => simp [List.flatten, ih]

/-! ## Link parsing (tweet_search.py lines 212-224, timeline.py lines 184-196)

The Python source (identical in both classes):
```
tweet_links = []
for tweet in tweets:
    if tweet['referenced_tweets'] is not None:
        for ref in tweet['referenced_tweets']:
            new_link = {
                'parent_id': tweet['id'],
                'id': ref['id'],
                'type': ref['type']
            }
            tweet_links.append(new_link)
return tweet_links
```
A raw tweet is a dict; the subscript `tweet['referenced_tweets']` raises
`KeyError` when the key is absent, which is distinct from the key being
present with value `None`.  The raw dict is therefore embedded with
`referenced_tweets : Option (Option (List RefEntry))`: the outer `Option`
is key presence, the inner one is `None` versus a list. -/

/-- One entry of a raw tweet's `referenced_tweets` list. -/
structure RefEntry where
  id : String
  type : String
deriving DecidableEq, Repr

/-- A raw tweet dict as consumed by `__parse_tweet_links`: its `id` and its
`referenced_tweets` entry (`none` = key absent, `some none` = key present
with value `None`). -/
structure TweetDict where
  id : String
  referenced_tweets : Option (Option (List RefEntry))
deriving DecidableEq, Repr

/-- One parent-child link dict `\x7bparent_id, id, type\x7d` as built by
`__parse_tweet_links`. -/
structure Link where
  parent_id : String
  id : String
  type : String
deriving DecidableEq, Repr

/-- `__parse_tweet_links` of both `TweetSearch` and `Timeline`: one link
per relationship entry of each tweet, in tweet order; a tweet whose
`referenced_tweets` value is `None` contributes no links; a tweet lacking
the key makes the whole call raise `KeyError` (`Except.error`). -/
def parse_tweet_links : List TweetDict → Except String (List Link)
  | [] => Except.ok []
  | t :: rest =>
      match t.referenced_tweets with
      | none => Except.error "KeyError: referenced_tweets"
      | some none => parse_tweet_links rest
      | some (some refs) =>
          match parse_tweet_links rest with
          | Except.error e => Except.error e
          | Except.ok links =>
              Except.ok ((refs.map fun r => ⟨t.id, r.id, r.type⟩) ++ links)

/-- Whether an `Except` value is a success. -/
def exceptIsOk {ε α : Type} : Except ε α → Bool
  | Except.ok _ => true
  | Except.error _ => false

/-- Every link produced by a successful parse carries the `id` of one of
the parsed tweets as its `parent_id`. -/
lemma parse_tweet_links_parent_mem (tweets : List TweetDict) :
    ∀ links, parse_tweet_links tweets = Except.ok links →
      ∀ l ∈ links, l.parent_id ∈ tweets.map TweetDict.id := by
  induction tweets with
  | nil =>
      intro links h l hl
      unfold parse_tweet_links at h
      cases h
      simp at hl
  | cons t rest ih =>
      intro links h l hl
      unfold parse_tweet_links at h
      cases hrt : t.referenced_tweets with
      | none => rw [hrt] at h; cases h
      | some v =>
          rw [hrt] at h
          cases v with
          | none =>
              have hmem := ih links h l hl
              rw [List.map_cons]
              exact List.mem_cons_of_mem _ hmem
          | some refs =>
              cases hrec : parse_tweet_links rest with
              | error e => rw [hrec] at h; cases h
              | ok ls =>
                  rw [hrec] at h
                  cases h
                  rcases List.mem_append.mp hl with hm | hm
                  · rcases List.mem_map.mp hm with ⟨r, _, hr⟩
                    rw [← hr]
                    simp [List.map_cons]
                  · have hmem := ih ls hrec l hm
                    rw [List.map_cons]
                    exact List.mem_cons_of_mem _ hmem

/-- The parse succeeds exactly when every tweet dict carries the
`referenced_tweets` key. -/
lemma parse_tweet_links_ok_iff (tweets : List TweetDict) :
    exceptIsOk (parse_tweet_links tweets) = true ↔
      ∀ t ∈ tweets, t.referenced_tweets ≠ none := by
  induction tweets with
  | nil => simp [parse_tweet_links, exceptIsOk]
  | cons t rest ih =>
      unfold parse_tweet_links
      cases hrt : t.referenced_tweets with
      | none =>
          simp only [exceptIsOk]
          constructor
          · intro h; cases h
          · intro h
            exact absurd hrt (h t (List.mem_cons_self t rest))
      | some v =>
          cases v with
          | none =>
              rw [ih]
              constructor
              · intro h u hu
                rcases List.mem_cons.mp hu with rfl | hu
                · rw [hrt]; intro hc; cases hc
                · exact h u hu
              · intro h u hu
                exact h u (List.mem_cons_of_mem t hu)
          | some refs =>
              cases hrec : parse_tweet_links rest with
              | error e =>
                  simp only [exceptIsOk]
                  rw [hrec] at ih
                  simp only [exceptIsOk] at ih
                  constructor
                  · intro h; cases h
                  · intro h
                    have : ∀ u ∈ rest, u.referenced_tweets ≠ none :=
                      fun u hu => h u (List.mem_cons_of_mem t hu)
                    exact absurd (ih.mpr this) (by intro hc; cases hc)
              | ok ls =>
                  simp only [exceptIsOk]
                  rw [hrec] at ih
                  simp only [exceptIsOk] at ih
                  constructor
                  · intro _ u hu
                    rcases List.mem_cons.mp hu with rfl | hu
                    · rw [hrt]; intro hc; cases hc
                    · exact (ih.mp trivial) u hu
                  · intro _; trivial

/-- C10: link parsing is total exactly on inputs in which every tweet dict
carries the `referenced_tweets` key (possibly with value `None`); on a
list containing a tweet lacking the key the call raises `KeyError` instead
of contributing no links for that tweet. -/
theorem parse_tweet_links_ok_iff_key_present :
    (∀ tweets : List TweetDict,
        exceptIsOk (parse_tweet_links tweets) = true ↔
          ∀ t ∈ tweets, t.referenced_tweets ≠ none) ∧
    parse_tweet_links [⟨"1", none⟩]
      = Except.error "KeyError: referenced_tweets" := by
  exact ⟨parse_tweet_links_ok_iff, rfl⟩

/-- The link-table gating of `TweetSearch.pull` (lines 90-102): the links
of a page are computed only when the string `referenced_tweets` occurs in
the configured `tweet_fields`; otherwise the page yields no link table. -/
def pageLinks (tweet_fields : List String) (tweets : List TweetDict) :
    Option (Except String (List Link)) :=
  if "referenced_tweets" ∈ tweet_fields then some (parse_tweet_links tweets)
  else none

/-- C6: if the requested fields exclude `referenced_tweets`, decomposition
produces no link table regardless of the page content; if they include it,
every emitted link's `parent_id` equals the `id` of a primary record of
the same page. -/
theorem pageLinks_gating_and_parent_ids (tweet_fields : List String)
    (tweets : List TweetDict) :
    (¬ "referenced_tweets" ∈ tweet_fields → pageLinks tweet_fields tweets = none) ∧
    (∀ links, pageLinks tweet_fields tweets = some (Except.ok links) →
      ∀ l ∈ links, l.parent_id ∈ tweets.map TweetDict.id) := by
  constructor
  · intro h
    unfold pageLinks
    rw [if_neg h]
  · intro links h
    unfold pageLinks at h
    by_cases hf : "referenced_tweets" ∈ tweet_fields
    · rw [if_pos hf] at h
      exact parse_tweet_links_parent_mem tweets links (Option.some.inj h)
    · rw [if_neg hf] at h
      cases h

/-- Witness for `pageLinks_gating_and_parent_ids`: with an empty field
selection no link table is produced, and with `referenced_tweets` selected
the single emitted link's parent is the page's tweet. -/
theorem pageLinks_gating_witness :
    pageLinks [] [⟨"1", some (some [⟨"9", "quoted"⟩])⟩] = none ∧
    ∀ l ∈ [Link.mk "1" "9" "quoted"],
      l.parent_id ∈ [TweetDict.mk "1" (some (some [⟨"9", "quoted"⟩]))].map
        TweetDict.id := by
  constructor
  · exact (pageLinks_gating_and_parent_ids []
      [⟨"1", some (some [⟨"9", "quoted"⟩])⟩]).1 (by decide)
  · exact (pageLinks_gating_and_parent_ids ["referenced_tweets"]
      [⟨"1", some (some [⟨"9", "quoted"⟩])⟩]).2 [⟨"1", "9", "quoted"⟩] rfl

/-! ## Retry loop (tweet_search.py lines 201-210, timeline.py lines 172-181)

The Python source (identical in both classes up to the client method):
```
max_retries = 5
retries = 0
while retries < max_retries:
    try:
        return self.client.search_all_tweets(query, **params)
    except tweepy.errors.TwitterServerError as e:
        ...
        retries += 1
        time.sleep(0.1)
```
The remote client is one call per attempt: attempt `i` either returns a
response or raises `tweepy.errors.TwitterServerError` (`Except.error`).
When the loop condition fails the function falls off its end, which in
Python returns `None` — it raises nothing. -/

/-- A decoded remote response: the page's records and its continuation
token (`response.data` and `response.meta.get('next_token')`). -/
structure ApiResponse where
  data : List TweetDict
  next_token : Option String
deriving DecidableEq, Repr

/-- The retry loop of `TweetSearch.search_tweets` / `Timeline.get_tweets`.
`retries` is the loop counter, `fuel` the remaining loop iterations
(`max_retries - retries`, so the loop is entered with fuel 5); the result
pairs the number of attempts actually made with the returned value, where
`none` is Python's implicit `return None` after the loop. -/
def retryLoop (client : Nat → Except Unit ApiResponse) :
    Nat → Nat → Nat × Option ApiResponse
  | _, 0 => (0, none)
  | retries, fuel + 1 =>
      if retries < 5 then
        match client retries with
        | Except.ok r => (1, some r)
        | Except.error _ =>
            let rec' := retryLoop client (retries + 1) fuel
            (rec'.1 + 1, rec'.2)
      else (0, none)

/-- `search_tweets` (and `get_tweets`): the retry loop entered at
`retries = 0` with `max_retries = 5`. -/
def search_tweets (client : Nat → Except Unit ApiResponse) :
    Nat × Option ApiResponse :=
  retryLoop client 0 5

/-- How `TweetSearch.pull` continues after the `search_tweets` call
(lines 70-83).  The `try` block wraps only the call itself; the embedded
`search_tweets` raises neither `EmptyTwitterResponseException` nor
`MaxRetries` (its only exception path retries `TwitterServerError`), so
the two `except ... continue` arms are reachable only from those
exceptions and the returned value falls through to `tweets =
response.data`, which raises `AttributeError` when the response is
`None`. -/
inductive FetchHandled where
  | skipBatch : FetchHandled
  | crashAttributeError : FetchHandled
  | page (r : ApiResponse) : FetchHandled
deriving DecidableEq, Repr

/-- What the fetch call delivered to `pull`: a plain return value, or one
of the two exceptions its `try` block catches. -/
inductive SearchOutcome where
  | returned (r : Option ApiResponse) : SearchOutcome
  | raisedEmptyResponse : SearchOutcome
  | raisedMaxRetries : SearchOutcome
deriving DecidableEq, Repr

/-- The fetch-handling step of `TweetSearch.pull`: the two `except` arms
skip the batch and continue; a returned value reaches `response.data`. -/
def pullReceive : SearchOutcome → FetchHandled
  | SearchOutcome.raisedEmptyResponse => FetchHandled.skipBatch
  | SearchOutcome.raisedMaxRetries => FetchHandled.skipBatch
  | SearchOutcome.returned none => FetchHandled.crashAttributeError
  | SearchOutcome.returned (some r) => FetchHandled.page r

/-- A remote client whose every attempt raises `TwitterServerError`. -/
def alwaysFailClient : Nat → Except Unit ApiResponse :=
  fun _ => Except.error ()

/-- C3: against a client that raises a transient server error on every
attempt, the fetcher makes exactly 5 attempts — but it then returns
`None` instead of raising `MaxRetries`, so `pull` does not skip the batch:
it crashes with `AttributeError` at `response.data`.  The claimed
skip-and-continue handling (`FetchHandled.skipBatch`) is not reached. -/
theorem search_tweets_exhaustion_crashes_pull :
    (search_tweets alwaysFailClient).1 = 5 ∧
    (search_tweets alwaysFailClient).2 = none ∧
    pullReceive (SearchOutcome.returned (search_tweets alwaysFailClient).2)
      = FetchHandled.crashAttributeError ∧
    pullReceive (SearchOutcome.returned (search_tweets alwaysFailClient).2)
      ≠ FetchHandled.skipBatch := by
  refine ⟨rfl, rfl, rfl, ?_⟩
  intro h
  cases h

/-! ## Pagination loop termination (tweet_search.py lines 167-171, timeline.py lines 149-153)

`TweetSearch.pull` iterates `for batch in batches` and ends each cycle
with
```
next_token = response.meta.get('next_token', None)
if next_token is None:
    break
```
`Timeline.pull` runs `while not finished` and sets `finished = True` under
the same condition.  The remote source is a cursor chain: fetch cycle `k`
receives the `k`-th page of the sequence. -/

/-- Number of fetch cycles `TweetSearch.pull` performs against a cursor
chain of pages: one cycle per planned batch, stopping early when a page
carries no continuation token. -/
def searchLoopCycles : List Int → List ApiResponse → Nat
  | [], _ => 0
  | _ :: _, [] => 0
  | _ :: bs, p :: ps =>
      if p.next_token = none then 1 else 1 + searchLoopCycles bs ps

/-- Number of fetch cycles `Timeline.pull` performs against a cursor chain
of pages: the `while not finished` loop stops when a page carries no
continuation token. -/
def timelineLoopCycles : List ApiResponse → Nat
  | [] => 0
  | p :: ps =>
      if p.next_token = none then 1 else 1 + timelineLoopCycles ps

/-- C7: against a cursor chain whose pages all carry a continuation token
except the last, both session loops perform exactly one fetch cycle per
page and then stop — for `TweetSearch.pull` even when planned batches
remain unconsumed (the plan is only required to be at least as long as the
chain). -/
theorem session_stops_on_null_cursor (batches : List Int)
    (pages : List ApiResponse) (hne : pages ≠ [])
    (hlen : pages.length ≤ batches.length)
    (hmid : ∀ p ∈ pages.dropLast, p.next_token ≠ none)
    (hlast : ∀ p, pages.getLast? = some p → p.next_token = none) :
    searchLoopCycles batches pages = pages.length ∧
    timelineLoopCycles pages = pages.length := by
  induction pages generalizing batches with
  | nil => exact absurd rfl hne
  | cons p ps ih =>
      cases ps with
      | nil =>
          have htok : p.next_token = none := hlast p rfl
          cases batches with
          | nil => simp at hlen
          | cons b bs =>
              constructor
              · unfold searchLoopCycles
                rw [if_pos htok]
                rfl
              · unfold timelineLoopCycles
                rw [if_pos htok]
                rfl
      | cons q qs =>
          have htok : p.next_token ≠ none := by
            apply hmid
            rw [List.dropLast_cons_of_ne_nil (by simp : q :: qs ≠ [])]
            exact List.mem_cons_self p _
          cases batches with
          | nil => simp at hlen
          | cons b bs =>
              have hlen' : (q :: qs).length ≤ bs.length := by
                simp only [List.length_cons] at hlen ⊢
                omega
              have hmid' : ∀ r ∈ (q :: qs).dropLast, r.next_token ≠ none := by
                intro r hr
                apply hmid
                rw [List.dropLast_cons_of_ne_nil (by simp : q :: qs ≠ [])]
                exact List.mem_cons_of_mem p hr
              have hlast' : ∀ r, (q :: qs).getLast? = some r →
                  r.next_token = none := by
                intro r hr
                apply hlast
                rw [List.getLast?_cons_cons]
                exact hr
              have hrec := ih bs (by simp) hlen' hmid' hlast'
              constructor
              · unfold searchLoopCycles
                rw [if_neg htok, hrec.1]
                simp only [List.length_cons]
                omega
              · unfold timelineLoopCycles
                rw [if_neg htok, hrec.2]
                simp only [List.length_cons]
                omega

/-- Witness for `session_stops_on_null_cursor`: a plan of three batches
against a two-page chain stops after exactly two fetch cycles. -/
theorem session_stops_witness :
    searchLoopCycles [100, 100, 100]
        [⟨[], some "tok"⟩, ⟨[], none⟩] = 2 ∧
    timelineLoopCycles [⟨[], some "tok"⟩, ⟨[], none⟩] = 2 :=
  session_stops_on_null_cursor [100, 100, 100]
    [⟨[], some "tok"⟩, ⟨[], none⟩] (by simp) (by simp)
    (by intro p hp; simp at hp; subst hp; simp)
    (by intro p hp; simp at hp; subst hp; rfl)

/-! ## Per-page merge and flush (tweet_search.py lines 92-150)

One loop body of `TweetSearch.pull` for a non-empty page, csv format: the
page's decomposed tables are merged into the accumulated DataFrames
(lines 108-127) and the updated DataFrames are written out (lines
129-150).  Each write serializes a whole accumulated DataFrame, so it
overwrites the file completely.  The gate of each secondary write is the
truthiness of the current page's expansion list (`if ref_tweets:` etc.),
and the links write is gated by the configuration flag `has_refs`. -/

/-- The decomposed tables of one page: primary records, the three
expansion kinds, and the links parsed from the page. -/
structure PageTables where
  tweets : List Row
  ref_tweets : List Row
  rel_users : List Row
  inc_media : List Row
  links : List Row
deriving DecidableEq, Repr

/-- The accumulated DataFrames of a `TweetSearch.pull` session
(line 66: `df_links, df_refs, df_users, df_tweets, df_media = None, ...`). -/
structure SearchDfs where
  df_refs : Option (List Row)
  df_users : Option (List Row)
  df_media : Option (List Row)
  df_links : Option (List Row)
  df_tweets : Option (List Row)
deriving DecidableEq, Repr

/-- The initial session state: every DataFrame is `None`. -/
def emptyDfs : SearchDfs :=
  ⟨none, none, none, none, none⟩

/-- `save_path % name` for `save_path = f"..dir../data_%s..fmt.."`. -/
def fileName (dir fmt name : String) : String :=
  dir ++ "/data_" ++ name ++ "." ++ fmt

/-- The merge half of the loop body (lines 108-127). -/
def searchMergePage (has_refs : Bool) (st : SearchDfs) (p : PageTables) :
    SearchDfs where
  df_refs :=
    if p.ref_tweets ≠ [] then some (mergeSecondary st.df_refs p.ref_tweets)
    else st.df_refs
  df_users :=
    if p.rel_users ≠ [] then some (mergeSecondary st.df_users p.rel_users)
    else st.df_users
  df_media :=
    if p.inc_media ≠ [] then some (mergeSecondary st.df_media p.inc_media)
    else st.df_media
  df_links :=
    if has_refs then some (mergeSecondary st.df_links p.links)
    else st.df_links
  df_tweets := some (st.df_tweets.getD [] ++ p.tweets)

/-- The csv flush half of the loop body (lines 129-150): the list of
`(file, serialized table)` writes it performs, in program order. -/
def searchFlushCsv (dir : String) (has_refs : Bool) (p : PageTables)
    (st : SearchDfs) : List (String × List Row) :=
  (if p.ref_tweets ≠ [] then
    [(fileName dir "csv" "ref_tweets", st.df_refs.getD [])] else []) ++
  (if p.rel_users ≠ [] then
    [(fileName dir "csv" "users", st.df_users.getD [])] else []) ++
  (if p.inc_media ≠ [] then
    [(fileName dir "csv" "media", st.df_media.getD [])] else []) ++
  (if has_refs then
    [(fileName dir "csv" "ref_links", st.df_links.getD [])] else []) ++
  [(fileName dir "csv" "tweets", st.df_tweets.getD [])]

/-- One loop body of `TweetSearch.pull` for a fetched page in csv format:
an empty page (`if tweets:` false) changes nothing and writes nothing;
otherwise the page is merged and the updated DataFrames are flushed. -/
def searchStep (dir : String) (has_refs : Bool) (st : SearchDfs)
    (p : PageTables) : SearchDfs × List (String × List Row) :=
  if p.tweets = [] then (st, [])
  else
    let st2 := searchMergePage has_refs st p
    (st2, searchFlushCsv dir has_refs p st2)

/-- A whole `TweetSearch.pull` session over a sequence of fetched pages:
the final DataFrames and the per-page write lists. -/
def searchRun (dir : String) (has_refs : Bool) (pages : List PageTables) :
    SearchDfs × List (List (String × List Row)) :=
  pages.foldl
    (fun acc p =>
      let s := searchStep dir has_refs acc.1 p
      (s.1, acc.2 ++ [s.2]))
    (emptyDfs, [])

/-- `fileName` is injective in the table-kind component. -/
lemma fileName_inj (dir fmt a b : String)
    (h : fileName dir fmt a = fileName dir fmt b) : a = b := by
  unfold fileName at h
  have hd := congrArg String.data h
  simp [String.data_append] at hd
  exact String.ext hd

/-- Membership in the csv write list of one page. -/
lemma mem_searchFlushCsv (dir : String) (has_refs : Bool) (p : PageTables)
    (st : SearchDfs) (nm : String) (tbl : List Row) :
    (nm, tbl) ∈ searchFlushCsv dir has_refs p st ↔
      (p.ref_tweets ≠ [] ∧ nm = fileName dir "csv" "ref_tweets" ∧
        tbl = st.df_refs.getD []) ∨
      (p.rel_users ≠ [] ∧ nm = fileName dir "csv" "users" ∧
        tbl = st.df_users.getD []) ∨
      (p.inc_media ≠ [] ∧ nm = fileName dir "csv" "media" ∧
        tbl = st.df_media.getD []) ∨
      (has_refs = true ∧ nm = fileName dir "csv" "ref_links" ∧
        tbl = st.df_links.getD []) ∨
      (nm = fileName dir "csv" "tweets" ∧ tbl = st.df_tweets.getD []) := by
  unfold searchFlushCsv
  simp only [List.mem_append, List.mem_ite_nil_right, List.mem_singleton,
    Prod.mk.injEq]
  tauto

/-- C8 counterexample: a two-page csv search session in which page 1
carries a user expansion and page 2 does not.  Page 1's flush writes the
user table to `data_users.csv` — a file name outside the claim's
enumeration (`data_authors.<ext>` for the user kind).  After page 2 is
merged the accumulated users table is still non-empty, yet page 2's flush
writes only `data_tweets.csv`, so a non-empty accumulated table is not
serialized after every merged page. -/
theorem searchFlush_users_name_and_gating_cex :
    (searchRun "out" false
        [⟨[⟨"t1", "x"⟩], [], [⟨"u1", "x"⟩], [], []⟩,
         ⟨[⟨"t2", "x"⟩], [], [], [], []⟩]).1.df_users
      = some [⟨"u1", "x"⟩] ∧
    (searchRun "out" false
        [⟨[⟨"t1", "x"⟩], [], [⟨"u1", "x"⟩], [], []⟩,
         ⟨[⟨"t2", "x"⟩], [], [], [], []⟩]).2
      = [[("out/data_users.csv", [⟨"u1", "x"⟩]),
          ("out/data_tweets.csv", [⟨"t1", "x"⟩])],
         [("out/data_tweets.csv", [⟨"t1", "x"⟩, ⟨"t2", "x"⟩])]] := by
  exact ⟨by decide, by decide⟩

/-- Looking up the ref_tweets file in one page's csv writes. -/
lemma searchFlushCsv_refs_lookup (dir : String) (has_refs : Bool)
    (p : PageTables) (st : SearchDfs) (tbl : List Row) :
    (fileName dir "csv" "ref_tweets", tbl) ∈ searchFlushCsv dir has_refs p st
      ↔ (p.ref_tweets ≠ [] ∧ tbl = st.df_refs.getD []) := by
  rw [mem_searchFlushCsv]
  constructor
  · rintro (⟨hg, _, htb⟩ | ⟨_, hnm, _⟩ | ⟨_, hnm, _⟩ | ⟨_, hnm, _⟩ |
        ⟨hnm, _⟩) <;>
      first
        | exact ⟨hg, htb⟩
        | exact absurd (fileName_inj _ _ _ _ hnm) (by decide)
  · rintro ⟨hg, htb⟩
    exact Or.inl ⟨hg, rfl, htb⟩

/-- Looking up the users file in one page's csv writes. -/
lemma searchFlushCsv_users_lookup (dir : String) (has_refs : Bool)
    (p : PageTables) (st : SearchDfs) (tbl : List Row) :
    (fileName dir "csv" "users", tbl) ∈ searchFlushCsv dir has_refs p st
      ↔ (p.rel_users ≠ [] ∧ tbl = st.df_users.getD []) := by
  rw [mem_searchFlushCsv]
  constructor
  · rintro (⟨_, hnm, _⟩ | ⟨hg, _, htb⟩ | ⟨_, hnm, _⟩ | ⟨_, hnm, _⟩ |
        ⟨hnm, _⟩) <;>
      first
        | exact ⟨hg, htb⟩
        | exact absurd (fileName_inj _ _ _ _ hnm) (by decide)
  · rintro ⟨hg, htb⟩
    exact Or.inr (Or.inl ⟨hg, rfl, htb⟩)

/-- Looking up the media file in one page's csv writes. -/
lemma searchFlushCsv_media_lookup (dir : String) (has_refs : Bool)
    (p : PageTables) (st : SearchDfs) (tbl : List Row) :
    (fileName dir "csv" "media", tbl) ∈ searchFlushCsv dir has_refs p st
      ↔ (p.inc_media ≠ [] ∧ tbl = st.df_media.getD []) := by
  rw [mem_searchFlushCsv]
  constructor
  · rintro (⟨_, hnm, _⟩ | ⟨_, hnm, _⟩ | ⟨hg, _, htb⟩ | ⟨_, hnm, _⟩ |
        ⟨hnm, _⟩) <;>
      first
        | exact ⟨hg, htb⟩
        | exact absurd (fileName_inj _ _ _ _ hnm) (by decide)
  · rintro ⟨hg, htb⟩
    exact Or.inr (Or.inr (Or.inl ⟨hg, rfl, htb⟩))

/-- Looking up the ref_links file in one page's csv writes. -/
lemma searchFlushCsv_links_lookup (dir : String) (has_refs : Bool)
    (p : PageTables) (st : SearchDfs) (tbl : List Row) :
    (fileName dir "csv" "ref_links", tbl) ∈ searchFlushCsv dir has_refs p st
      ↔ (has_refs = true ∧ tbl = st.df_links.getD []) := by
  rw [mem_searchFlushCsv]
  constructor
  · rintro (⟨_, hnm, _⟩ | ⟨_, hnm, _⟩ | ⟨_, hnm, _⟩ | ⟨hg, _, htb⟩ |
        ⟨hnm, _⟩) <;>
      first
        | exact ⟨hg, htb⟩
        | exact absurd (fileName_inj _ _ _ _ hnm) (by decide)
  · rintro ⟨hg, htb⟩
    exact Or.inr (Or.inr (Or.inr (Or.inl ⟨hg, rfl, htb⟩)))

/-- Looking up the tweets file in one page's csv writes. -/
lemma searchFlushCsv_tweets_lookup (dir : String) (has_refs : Bool)
    (p : PageTables) (st : SearchDfs) (tbl : List Row) :
    (fileName dir "csv" "tweets", tbl) ∈ searchFlushCsv dir has_refs p st
      ↔ tbl = st.df_tweets.getD [] := by
  rw [mem_searchFlushCsv]
  constructor
  · rintro (⟨_, hnm, _⟩ | ⟨_, hnm, _⟩ | ⟨_, hnm, _⟩ | ⟨_, hnm, _⟩ |
        ⟨_, htb⟩) <;>
      first
        | exact htb
        | exact absurd (fileName_inj _ _ _ _ hnm) (by decide)
  · rintro htb
    exact Or.inr (Or.inr (Or.inr (Or.inr ⟨rfl, htb⟩)))

/-- The expansion lists of one `Timeline.pull` page that gate its csv
writes (timeline.py lines 76-77: `inc_tweets`, `inc_users`; media handling
is commented out in the source). -/
structure TimelinePage where
  tweets : List Row
  inc_tweets : List Row
  inc_users : List Row
deriving DecidableEq, Repr

/-- The csv flush half of the `Timeline.pull` loop body (timeline.py lines
111-132): the referenced-tweets table gated on the page's tweet
expansions, the user table — written to `data_authors.csv` — gated on the
page's user expansions, the link table gated on the configuration flag
`has_refs`, and the tweets table always. -/
def timelineFlushCsv (dir : String) (has_refs : Bool) (p : TimelinePage)
    (df_refs df_users df_links df_tweets : List Row) :
    List (String × List Row) :=
  (if p.inc_tweets ≠ [] then
    [(fileName dir "csv" "ref_tweets", df_refs)] else []) ++
  (if p.inc_users ≠ [] then
    [(fileName dir "csv" "authors", df_users)] else []) ++
  (if has_refs then
    [(fileName dir "csv" "ref_links", df_links)] else []) ++
  [(fileName dir "csv" "tweets", df_tweets)]

/-- Membership in the csv write list of one `Timeline.pull` page. -/
lemma mem_timelineFlushCsv (dir : String) (has_refs : Bool)
    (p : TimelinePage) (df_refs df_users df_links df_tweets : List Row)
    (nm : String) (tbl : List Row) :
    (nm, tbl) ∈ timelineFlushCsv dir has_refs p df_refs df_users df_links
        df_tweets ↔
      (p.inc_tweets ≠ [] ∧ nm = fileName dir "csv" "ref_tweets" ∧
        tbl = df_refs) ∨
      (p.inc_users ≠ [] ∧ nm = fileName dir "csv" "authors" ∧
        tbl = df_users) ∨
      (has_refs = true ∧ nm = fileName dir "csv" "ref_links" ∧
        tbl = df_links) ∨
      (nm = fileName dir "csv" "tweets" ∧ tbl = df_tweets) := by
  unfold timelineFlushCsv
  simp only [List.mem_append, List.mem_ite_nil_right, List.mem_singleton,
    Prod.mk.injEq]
  tauto

/-- Looking up the authors file in one `Timeline.pull` page's csv writes. -/
lemma timelineFlushCsv_authors_lookup (dir : String) (has_refs : Bool)
    (p : TimelinePage) (df_refs df_users df_links df_tweets : List Row)
    (tbl : List Row) :
    (fileName dir "csv" "authors", tbl) ∈ timelineFlushCsv dir has_refs p
        df_refs df_users df_links df_tweets ↔
      (p.inc_users ≠ [] ∧ tbl = df_users) := by
  rw [mem_timelineFlushCsv]
  constructor
  · rintro (⟨_, hnm, _⟩ | ⟨hg, _, htb⟩ | ⟨_, hnm, _⟩ | ⟨hnm, _⟩) <;>
      first
        | exact ⟨hg, htb⟩
        | exact absurd (fileName_inj _ _ _ _ hnm) (by decide)
  · rintro ⟨hg, htb⟩
    exact Or.inr (Or.inl ⟨hg, rfl, htb⟩)

/-- C8 amended: after every merged page of a csv `TweetSearch` session,
the primary table is written to `data_tweets.csv` and every write of it
carries the full accumulated content (overwrite); each secondary table
(ref_tweets, users, media, links) is written exactly when the current page
contributed records of that kind — links exactly when `referenced_tweets`
is configured — and every such write carries the full accumulated table
for its kind; every file written is one of `data_ref_tweets.csv`,
`data_users.csv` (not `data_authors.csv`), `data_media.csv`,
`data_ref_links.csv`, `data_tweets.csv`; and `Timeline.pull`'s flush
writes its user table to `data_authors.csv`, gated on the page's user
expansions, with file names drawn from its own four-name set. -/
theorem searchStep_flush_behavior (dir : String) (has_refs : Bool)
    (st : SearchDfs) (p : PageTables) (h : p.tweets ≠ []) :
    ((fileName dir "csv" "tweets",
        (searchStep dir has_refs st p).1.df_tweets.getD [])
      ∈ (searchStep dir has_refs st p).2) ∧
    (∀ tbl, (fileName dir "csv" "tweets", tbl)
        ∈ (searchStep dir has_refs st p).2 →
      tbl = (searchStep dir has_refs st p).1.df_tweets.getD []) ∧
    ((∃ tbl, (fileName dir "csv" "ref_tweets", tbl)
        ∈ (searchStep dir has_refs st p).2) ↔ p.ref_tweets ≠ []) ∧
    (∀ tbl, (fileName dir "csv" "ref_tweets", tbl)
        ∈ (searchStep dir has_refs st p).2 →
      tbl = (searchStep dir has_refs st p).1.df_refs.getD []) ∧
    ((∃ tbl, (fileName dir "csv" "users", tbl)
        ∈ (searchStep dir has_refs st p).2) ↔ p.rel_users ≠ []) ∧
    (∀ tbl, (fileName dir "csv" "users", tbl)
        ∈ (searchStep dir has_refs st p).2 →
      tbl = (searchStep dir has_refs st p).1.df_users.getD []) ∧
    ((∃ tbl, (fileName dir "csv" "media", tbl)
        ∈ (searchStep dir has_refs st p).2) ↔ p.inc_media ≠ []) ∧
    (∀ tbl, (fileName dir "csv" "media", tbl)
        ∈ (searchStep dir has_refs st p).2 →
      tbl = (searchStep dir has_refs st p).1.df_media.getD []) ∧
    ((∃ tbl, (fileName dir "csv" "ref_links", tbl)
        ∈ (searchStep dir has_refs st p).2) ↔ has_refs = true) ∧
    (∀ tbl, (fileName dir "csv" "ref_links", tbl)
        ∈ (searchStep dir has_refs st p).2 →
      tbl = (searchStep dir has_refs st p).1.df_links.getD []) ∧
    (∀ w ∈ (searchStep dir has_refs st p).2,
      w.1 = fileName dir "csv" "ref_tweets" ∨
      w.1 = fileName dir "csv" "users" ∨
      w.1 = fileName dir "csv" "media" ∨
      w.1 = fileName dir "csv" "ref_links" ∨
      w.1 = fileName dir "csv" "tweets") ∧
    (∀ (tdir : String) (thas : Bool) (tp : TimelinePage)
        (dr du dl dt : List Row),
      ((∃ tbl, (fileName tdir "csv" "authors", tbl)
          ∈ timelineFlushCsv tdir thas tp dr du dl dt) ↔
        tp.inc_users ≠ []) ∧
      (∀ tbl, (fileName tdir "csv" "authors", tbl)
          ∈ timelineFlushCsv tdir thas tp dr du dl dt → tbl = du) ∧
      (∀ w ∈ timelineFlushCsv tdir thas tp dr du dl dt,
        w.1 = fileName tdir "csv" "ref_tweets" ∨
        w.1 = fileName tdir "csv" "authors" ∨
        w.1 = fileName tdir "csv" "ref_links" ∨
        w.1 = fileName tdir "csv" "tweets")) := by
  unfold searchStep
  rw [if_neg h]
  simp only []
  refine ⟨?_, ?_, ?_, ?_, ?_, ?_, ?_, ?_, ?_, ?_, ?_, ?_⟩
  · exact (searchFlushCsv_tweets_lookup dir has_refs p _ _).mpr rfl
  · intro tbl htbl
    exact (searchFlushCsv_tweets_lookup dir has_refs p _ _).mp htbl
  · constructor
    · rintro ⟨tbl, htbl⟩
      exact ((searchFlushCsv_refs_lookup dir has_refs p _ _).mp htbl).1
    · intro hg
      exact ⟨_, (searchFlushCsv_refs_lookup dir has_refs p _ _).mpr ⟨hg, rfl⟩⟩
  · intro tbl htbl
    exact ((searchFlushCsv_refs_lookup dir has_refs p _ _).mp htbl).2
  · constructor
    · rintro ⟨tbl, htbl⟩
      exact ((searchFlushCsv_users_lookup dir has_refs p _ _).mp htbl).1
    · intro hg
      exact ⟨_, (searchFlushCsv_users_lookup dir has_refs p _ _).mpr ⟨hg, rfl⟩⟩
  · intro tbl htbl
    exact ((searchFlushCsv_users_lookup dir has_refs p _ _).mp htbl).2
  · constructor
    · rintro ⟨tbl, htbl⟩
      exact ((searchFlushCsv_media_lookup dir has_refs p _ _).mp htbl).1
    · intro hg
      exact ⟨_, (searchFlushCsv_media_lookup dir has_refs p _ _).mpr ⟨hg, rfl⟩⟩
  · intro tbl htbl
    exact ((searchFlushCsv_media_lookup dir has_refs p _ _).mp htbl).2
  · constructor
    · rintro ⟨tbl, htbl⟩
      exact ((searchFlushCsv_links_lookup dir has_refs p _ _).mp htbl).1
    · intro hg
      exact ⟨_, (searchFlushCsv_links_lookup dir has_refs p _ _).mpr ⟨hg, rfl⟩⟩
  · intro tbl htbl
    exact ((searchFlushCsv_links_lookup dir has_refs p _ _).mp htbl).2
  · intro w hw
    obtain ⟨nm, tbl⟩ := w
    rw [mem_searchFlushCsv] at hw
    rcases hw with ⟨_, hnm, _⟩ | ⟨_, hnm, _⟩ | ⟨_, hnm, _⟩ | ⟨_, hnm, _⟩ |
        ⟨hnm, _⟩
    · exact Or.inl hnm
    · exact Or.inr (Or.inl hnm)
    · exact Or.inr (Or.inr (Or.inl hnm))
    · exact Or.inr (Or.inr (Or.inr (Or.inl hnm)))
    · exact Or.inr (Or.inr (Or.inr (Or.inr hnm)))
  · intro tdir thas tp dr du dl dt
    refine ⟨?_, ?_, ?_⟩
    · constructor
      · rintro ⟨tbl, htbl⟩
        exact ((timelineFlushCsv_authors_lookup tdir thas tp dr du dl dt
          _).mp htbl).1
      · intro hg
        exact ⟨du, (timelineFlushCsv_authors_lookup tdir thas tp dr du dl dt
          du).mpr ⟨hg, rfl⟩⟩
    · intro tbl htbl
      exact ((timelineFlushCsv_authors_lookup tdir thas tp dr du dl dt
        tbl).mp htbl).2
    · intro w hw
      obtain ⟨nm, tbl⟩ := w
      rw [mem_timelineFlushCsv] at hw
      rcases hw with ⟨_, hnm, _⟩ | ⟨_, hnm, _⟩ | ⟨_, hnm, _⟩ | ⟨hnm, _⟩
      · exact Or.inl hnm
      · exact Or.inr (Or.inl hnm)
      · exact Or.inr (Or.inr (Or.inl hnm))
      · exact Or.inr (Or.inr (Or.inr hnm))

/-- Witness for `searchStep_flush_behavior` on a one-tweet page with a
user expansion, including the `Timeline` authors-file conjunct. -/
theorem searchStep_flush_witness :
    ((fileName "out" "csv" "tweets",
        (searchStep "out" false emptyDfs
          ⟨[⟨"t1", "x"⟩], [], [⟨"u1", "x"⟩], [], []⟩).1.df_tweets.getD [])
      ∈ (searchStep "out" false emptyDfs
          ⟨[⟨"t1", "x"⟩], [], [⟨"u1", "x"⟩], [], []⟩).2) ∧
    ((∃ tbl, (fileName "out" "csv" "users", tbl)
        ∈ (searchStep "out" false emptyDfs
            ⟨[⟨"t1", "x"⟩], [], [⟨"u1", "x"⟩], [], []⟩).2) ↔
      ([⟨"u1", "x"⟩] : List Row) ≠ []) ∧
    ((∃ tbl, (fileName "out" "csv" "authors", tbl)
        ∈ timelineFlushCsv "out" false ⟨[⟨"t1", "x"⟩], [], [⟨"u1", "x"⟩]⟩
            [] [⟨"u1", "x"⟩] [] [⟨"t1", "x"⟩]) ↔
      ([⟨"u1", "x"⟩] : List Row) ≠ []) := by
  have hall := searchStep_flush_behavior "out" false emptyDfs
    ⟨[⟨"t1", "x"⟩], [], [⟨"u1", "x"⟩], [], []⟩ (by decide)
  refine ⟨hall.1, hall.2.2.2.2.1, ?_⟩
  have htl := hall.2.2.2.2.2.2.2.2.2.2.2 "out" false
    ⟨[⟨"t1", "x"⟩], [], [⟨"u1", "x"⟩]⟩ [] [⟨"u1", "x"⟩] [] [⟨"t1", "x"⟩]
  exact htl.1

end TwitterTimeline
